import Mathlib

/-!
Verification development for the IMU extraction / heading-analysis core of
the AV-Gaussian-Workflow repository (module `imu_extractor.py`, plus the
`.insv` sibling-resolution logic of `extract_360video_imu.py`).

Python floats are modelled as elements of a `LinearOrderedField` (instantiated
with `ℝ` in all theorems).  The constant `math.pi` used by `math.degrees` is
passed explicitly as a parameter `piv` so that the definitions remain
computable; every theorem instantiates it with `Real.pi`.
-/

namespace AVGaussian

section Core

variable {α : Type} [LinearOrderedField α] [FloorRing α]

/-- `IMUReading` (dataclass in `imu_extractor.py`): one timestamped sample,
seven float fields. -/
structure IMUReading (α : Type) where
  timestamp : α
  accel_x : α
  accel_y : α
  accel_z : α
  gyro_x : α
  gyro_y : α
  gyro_z : α
  deriving Repr

/-- Python `a % b` on floats: `a - b * floor (a / b)`. -/
def pymod (a b : α) : α := a - b * (⌊a / b⌋ : ℤ)

/-- Lines 464-466 of `imu_extractor.py`:
`current_heading = current_heading % 360.0; if current_heading < 0: current_heading += 360.0`. -/
def normalize360 (h : α) : α :=
  let m := pymod h 360
  if m < 0 then m + 360 else m

/-- Lines 451-453: `dt = reading.timestamp - prev.timestamp; if dt <= 0: dt = 1.0/1000.0`. -/
def dtFix (dt : α) : α := if dt ≤ 0 then 1 / 1000 else dt

/-- `math.degrees x = x * 180 / math.pi`; the value of `math.pi` is the
parameter `piv`. -/
def math_degrees (piv x : α) : α := x * 180 / piv

/-- One iteration of the loop body of `calculate_heading_changes`
(lines 450-468) for a non-first reading: integrate `gyro_z` over the fixed
time delta, convert to degrees, add to the running heading, normalize. -/
def headingStep (piv cur : α) (prev r : IMUReading α) : α :=
  normalize360 (cur + math_degrees piv (r.gyro_z * dtFix (r.timestamp - prev.timestamp)))

/-- The tail of the loop of `calculate_heading_changes`: `cur` is the running
heading, `prev` the previous reading. -/
def headingSteps (piv cur : α) (prev : IMUReading α) :
    List (IMUReading α) → List (α × α)
  | [] => []
  | r :: rs =>
      let h := headingStep piv cur prev r
      (r.timestamp, h) :: headingSteps piv h r rs

/-- `IMUExtractor.calculate_heading_changes` (lines 431-470): empty input gives
`[]`; otherwise the first sample is `(t₀, 0.0)` and the rest integrate the
gyroscope Z axis. -/
def calculate_heading_changes (piv : α) : List (IMUReading α) → List (α × α)
  | [] => []
  | r :: rs => (r.timestamp, 0) :: headingSteps piv 0 r rs

/-- The per-pair increment of the integration, as described by the claim:
`degrees(gyro_z_of_current * dt)` with the `dt <= 0 → 1ms` fallback. -/
def stepDelta (piv : α) (prev r : IMUReading α) : α :=
  math_degrees piv (r.gyro_z * dtFix (r.timestamp - prev.timestamp))

/-- Claim-level description of the heading values: a left scan starting at 0,
each step adding the degree increment for the consecutive pair and
normalizing into [0, 360). -/
def headingScan (piv : α) (rs : List (IMUReading α)) : List α :=
  List.scanl (fun h d => normalize360 (h + d)) 0
    (List.zipWith (stepDelta piv) rs rs.tail)

/-- Lines 493-497 of `get_direction_summary`: the signed shortest angular
delta between consecutive headings. -/
def shortestDelta (prev h : α) : α :=
  let diff := h - prev
  if diff > 180 then diff - 360
  else if diff < -180 then diff + 360
  else diff

/-- The accumulation loop of `get_direction_summary` (lines 486-505):
`total` is `total_rotation`, `changes` is `direction_changes`, `prev` is
`prev_heading`; iterates over `headings[1:]`. -/
def dirLoopAux (total : α) (changes : ℕ) (prev : α) :
    List (α × α) → α × ℕ
  | [] => (total, changes)
  | p :: rest =>
      let d := shortestDelta prev p.2
      dirLoopAux (total + |d|) (if 10 < |d| then changes + 1 else changes) p.2 rest

/-- The dictionary returned by `get_direction_summary` (lines 514-521). -/
structure DirectionSummary (α : Type) where
  total_rotation_degrees : α
  direction_changes_count : ℕ
  average_rotation_rate_deg_per_sec : α
  initial_heading_degrees : α
  final_heading_degrees : α
  heading_samples : ℕ
  deriving Repr

/-- `IMUExtractor.get_direction_summary` (lines 472-521).  The empty Python
dict returned when there is no data is modelled as `none`. -/
def get_direction_summary (piv : α) (rs : List (IMUReading α)) :
    Option (DirectionSummary α) :=
  if rs.isEmpty then none
  else
    match calculate_heading_changes piv rs with
    | [] => none
    | h0 :: rest =>
        let tc := dirLoopAux 0 0 h0.2 rest
        let lastH := rest.getLastD h0
        let avg :=
          if 1 < (h0 :: rest).length then
            (if 0 < lastH.1 - h0.1 then tc.1 / (lastH.1 - h0.1) else 0)
          else 0
        some ⟨tc.1, tc.2, avg, h0.2, lastH.2, (h0 :: rest).length⟩

/-- One line of the plain-text exiftool output, after lexing
(`_parse_raw_insta360_output`, lines 127-165).  The payload is `none` when
the line was recognized but its numeric text failed `float()` (a `ValueError`
triggering `continue`); lines whose structure does not reach a parse attempt
(no colon, wrong token count, unrecognized, empty) behave identically to
unrecognized lines with respect to the pending state and the emission check,
and are all represented by `other`. -/
inductive RawLine (α : Type) where
  | timeCode (v : Option α)
  | accel (v : Option (α × α × α))
  | gyro (v : Option (α × α × α))
  | other
  deriving Repr

/-- The loop state of `_parse_raw_insta360_output`: the three pending fields
plus the readings appended to `self.imu_data` so far. -/
structure ParseState (α : Type) where
  tc : Option α
  acc : Option (α × α × α)
  gyr : Option (α × α × α)
  out : List (IMUReading α)

/-- Lines 167-182: if all three pending fields are populated, append one
`IMUReading` and reset them.  (The Python test `current_accel and
current_gyro` is truthiness on length-3 lists, i.e. just "is not None".) -/
def emitCheck (s : ParseState α) : ParseState α :=
  match s.tc, s.acc, s.gyr with
  | some t, some a, some g =>
      { tc := none, acc := none, gyr := none,
        out := s.out ++ [⟨t, a.1, a.2.1, a.2.2, g.1, g.2.1, g.2.2⟩] }
  | _, _, _ => s

/-- One iteration of the line loop.  A malformed numeric payload `continue`s
(skipping the emission check); a valid time code is divided by 1000
(milliseconds to seconds, line 137). -/
def stepLine (s : ParseState α) : RawLine α → ParseState α
  | .timeCode none => s
  | .timeCode (some v) => emitCheck { s with tc := some (v / 1000) }
  | .accel none => s
  | .accel (some a) => emitCheck { s with acc := some a }
  | .gyro none => s
  | .gyro (some g) => emitCheck { s with gyr := some g }
  | .other => emitCheck s

/-- `_parse_raw_insta360_output` (lines 119-184), returning the readings
appended to `self.imu_data` (the method's boolean result is
`(parse_raw_insta360_output lines).length > 0` for a fresh extractor). -/
def parse_raw_insta360_output (lines : List (RawLine α)) : List (IMUReading α) :=
  (lines.foldl stepLine ⟨none, none, none, []⟩).out

/-- Slot update for the spec-level parse: a well-formed time code replaces
the pending one (divided by 1000); anything else leaves it unchanged. -/
def specSlotTc (l : RawLine α) (tc : Option α) : Option α :=
  match l with
  | .timeCode (some v) => some (v / 1000)
  | _ => tc

/-- Slot update for the pending accelerometer triple. -/
def specSlotAcc (l : RawLine α) (acc : Option (α × α × α)) : Option (α × α × α) :=
  match l with
  | .accel (some a) => some a
  | _ => acc

/-- Slot update for the pending gyroscope triple. -/
def specSlotGyr (l : RawLine α) (gyr : Option (α × α × α)) : Option (α × α × α) :=
  match l with
  | .gyro (some g) => some g
  | _ => gyr

/-- The reading emitted when all three pending slots are populated. -/
def specEmit (tc : Option α) (acc gyr : Option (α × α × α)) :
    Option (IMUReading α) :=
  match tc, acc, gyr with
  | some t, some a, some g => some ⟨t, a.1, a.2.1, a.2.2, g.1, g.2.1, g.2.2⟩
  | _, _, _ => none

/-- Spec-level description of the plain-text parse (§4.1 of the spec): three
independent pending slots, a malformed field leaves its slot unchanged, and
whenever all three are simultaneously populated one reading is emitted and
all three are reset. -/
def specParse (tc : Option α) (acc gyr : Option (α × α × α)) :
    List (RawLine α) → List (IMUReading α)
  | [] => []
  | l :: ls =>
      let tc' := specSlotTc l tc
      let acc' := specSlotAcc l acc
      let gyr' := specSlotGyr l gyr
      match specEmit tc' acc' gyr' with
      | some r => r :: specParse none none none ls
      | none => specParse tc' acc' gyr' ls

/-- JSON-ish values appearing in exiftool's `-j` output.  `triple x y z`
stands for a string of exactly three space-separated floats (the only string
shape the code successfully splits and converts); `strOther` covers every
other string, and `null` anything on which `float()` raises. -/
inductive JVal (α : Type) where
  | num (x : α)
  | triple (x y z : α)
  | strOther
  | arr (items : List (JVal α))
  | obj (fields : List (String × JVal α))
  | null
  deriving Repr

/-- A JSON object (Python dict), in insertion order. -/
def Meta (α : Type) : Type := List (String × JVal α)

/-- Python `d[k]` / `k in d` on a dict. -/
def metaLookup (m : Meta α) (k : String) : Option (JVal α) :=
  (m.find? (fun p => p.1 = k)).map (·.2)

/-- `float(v)`: succeeds on numbers, raises on everything else modelled here
(numeric strings do not occur in the metadata shapes the claims concern). -/
def pyFloat : JVal α → Option α
  | .num x => some x
  | _ => none

/-- The `"x y z".split()` + three `float()` calls pattern: succeeds exactly
on a three-float string. -/
def asTriple : JVal α → Option (α × α × α)
  | .triple x y z => some (x, y, z)
  | _ => none

/-- `_find_value` (lines 368-373): first alias present in the dict wins. -/
def find_value (m : Meta α) (keys : List String) : Option (JVal α) :=
  match keys.find? (fun k => (metaLookup m k).isSome) with
  | some k => metaLookup m k
  | none => none

/-- `float()` applied to an optional gyro field: absent means `0.0`
(lines 360-362), present but non-numeric raises (reading dropped). -/
def gyroConv (o : Option (JVal α)) : Option α :=
  match o with
  | none => some 0
  | some v => pyFloat v

/-- `_parse_single_imu_reading` (lines 335-366): requires all three
accelerometer axes, defaults missing gyro axes to 0, takes an explicit
`timestamp`-like field over the positional default `ts`, and returns `none`
whenever a conversion of a present field raises. -/
def parse_single_imu_reading (d : Meta α) (ts : α) : Option (IMUReading α) :=
  let axv := find_value d ["AccelX", "accel_x", "ax", "AccelerationX"]
  let ayv := find_value d ["AccelY", "accel_y", "ay", "AccelerationY"]
  let azv := find_value d ["AccelZ", "accel_z", "az", "AccelerationZ"]
  let gxv := find_value d ["GyroX", "gyro_x", "gx", "AngularVelocityX"]
  let gyv := find_value d ["GyroY", "gyro_y", "gy", "AngularVelocityY"]
  let gzv := find_value d ["GyroZ", "gyro_z", "gz", "AngularVelocityZ"]
  let tsv := find_value d ["timestamp", "time", "Timestamp", "Time"]
  let tOpt : Option α := match tsv with
    | none => some ts
    | some v => pyFloat v
  match tOpt with
  | none => none
  | some t =>
      match axv.bind pyFloat, ayv.bind pyFloat, azv.bind pyFloat with
      | some ax, some ay, some az =>
          match gyroConv gxv, gyroConv gyv, gyroConv gzv with
          | some gx, some gy, some gz => some ⟨t, ax, ay, az, gx, gy, gz⟩
          | _, _, _ => none
      | _, _, _ => none

/-- The body of the list loop of `_extract_imu_readings` (lines 323-328):
the element at index `i` yields one reading at assumed-100 Hz timestamp
`i * 0.01` when it is a dict that parses, nothing otherwise. -/
def extract_arr_item (p : ℕ × JVal α) : List (IMUReading α) :=
  match p.2 with
  | .obj d => (parse_single_imu_reading d ((p.1 : α) * (1 / 100))).toList
  | _ => []

/-- `_extract_imu_readings` (lines 321-333): a list is one reading per dict
element at an assumed 100 Hz (`i * 0.01`), a dict is a single reading at
timestamp 0, anything else contributes nothing. -/
def extract_imu_readings (v : JVal α) : List (IMUReading α) :=
  match v with
  | .arr items => items.enum.flatMap extract_arr_item
  | .obj d => (parse_single_imu_reading d 0).toList
  | _ => []

/-- `_extract_insta360_imu_reading` (lines 277-319): `TimeCode` (default 0)
in milliseconds, `Accelerometer` / `AngularVelocity` as "x y z" strings;
wrong shapes or raising conversions yield no reading. -/
def extract_insta360_imu_reading (d : Meta α) : Option (IMUReading α) :=
  match pyFloat ((metaLookup d "TimeCode").getD (.num 0)) with
  | none => none
  | some tc =>
      match asTriple ((metaLookup d "Accelerometer").getD .strOther) with
      | none => none
      | some a =>
          match asTriple ((metaLookup d "AngularVelocity").getD .strOther) with
          | none => none
          | some g =>
              some ⟨tc / 1000, a.1, a.2.1, a.2.2, g.1, g.2.1, g.2.2⟩

/-- Lowercase a character sequence (`str.lower()` on the ASCII keys that
occur here). -/
def lowerChars (s : String) : List Char := s.data.map Char.toLower

/-- `a.isPrefixOf`-style check on character lists, self-contained. -/
def seqStarts : List Char → List Char → Bool
  | [], _ => true
  | _ :: _, [] => false
  | a :: as, b :: bs => a == b && seqStarts as bs

/-- `sub in s` on character lists (contiguous substring). -/
def seqContains (sub : List Char) : List Char → Bool
  | [] => sub.isEmpty
  | c :: cs => seqStarts sub (c :: cs) || seqContains sub cs

/-- `tok in key.lower()`. -/
def keyHasToken (key tok : String) : Bool :=
  seqContains tok.data (lowerChars key)

/-- Line 273: `'accel' in key.lower() or 'gyro' in key.lower() or 'imu' in key.lower()`. -/
def keyLooksImu (key : String) : Bool :=
  keyHasToken key "accel" || keyHasToken key "gyro" || keyHasToken key "imu"

/-- `isinstance(value, (list, dict))` (line 274). -/
def isListOrDict : JVal α → Bool
  | .arr _ => true
  | .obj _ => true
  | _ => false

/-- The fixed field-name list of `_parse_imu_from_metadata` (lines 255-258). -/
def imu_fields : List String :=
  ["AccelerometerData", "GyroscopeData", "SensorData",
   "CameraMotionMetadata", "MotionData", "IMUData"]

/-- Line 268 membership test for the `Doc*` branch. -/
def docEntryMatch (p : String × JVal α) : Bool :=
  seqStarts "Doc".data p.1.data &&
    (match p.2 with
     | .obj d => ((metaLookup d "Accelerometer").isSome &&
                  (metaLookup d "AngularVelocity").isSome)
     | _ => false)

/-- `_parse_imu_from_metadata` (lines 252-275): (1) first matching fixed
field name, (2) `Doc*` entries with nested `Accelerometer`/`AngularVelocity`,
(3) a case-insensitive substring scan of all keys for accel/gyro/imu.  The
readings are appended to `self.imu_data` in that order. -/
def parse_imu_from_metadata (m : Meta α) : List (IMUReading α) :=
  let phase1 :=
    match imu_fields.find? (fun f => (metaLookup m f).isSome) with
    | some f => extract_imu_readings ((metaLookup m f).getD .null)
    | none => []
  let phase2 := m.flatMap (fun p =>
    if docEntryMatch p then
      match p.2 with
      | .obj d => (extract_insta360_imu_reading d).toList
      | _ => []
    else [])
  let phase3 := m.flatMap (fun p =>
    if keyLooksImu p.1 && isListOrDict p.2 then
      extract_imu_readings p.2
    else [])
  phase1 ++ phase2 ++ phase3

/-- The Python exceptions that can escape the strategy functions and are
caught by `extract_imu_metadata` (lines 53-62); `zeroDivision` arises from
line 213 when the probed duration is 0 (it is outside the inner `try`). -/
inductive PyErr where
  | calledProcess
  | jsonDecode
  | zeroDivision
  deriving Repr, DecidableEq

/-- The external world seen by one extraction run: whether the path has the
`.insv` suffix, the outcome of the raw exiftool invocation (error =
non-zero exit under `check=True`), the outcome of the JSON exiftool
invocation (outer error = non-zero exit, inner error = `json.loads`
failure), and the ffprobe duration probe (error = any exception, caught by
the bare `except` at line 201). -/
structure ExtractEnv (α : Type) where
  insvSuffix : Bool
  rawExif : Except Unit (List (RawLine α))
  stdExif : Except Unit (Except Unit (List (Meta α)))
  probe : Except Unit α

/-- Python `min(r.timestamp for r in l)` on a non-empty list (0 for the
empty list, on which the source never calls it). -/
def tsMin : List (IMUReading α) → α
  | [] => 0
  | r :: rs => rs.foldl (fun m x => min m x.timestamp) r.timestamp

/-- Python `max(r.timestamp for r in l)` on a non-empty list. -/
def tsMax : List (IMUReading α) → α
  | [] => 0
  | r :: rs => rs.foldl (fun m x => max m x.timestamp) r.timestamp

/-- `_check_imu_data_completeness` (lines 190-220).  Result: `some w` with
`w = true` when the low-coverage warning was printed, `none` when the check
returned early (no data / failed probe); the reading list is passed through
unchanged (the method only reads `self.imu_data`).  A probed duration of 0
raises `ZeroDivisionError` at line 213, which is outside the inner `try`. -/
def check_imu_data_completeness (imu : List (IMUReading α))
    (probe : Except Unit α) :
    Except PyErr (Option Bool × List (IMUReading α)) :=
  if imu.isEmpty then .ok (none, imu)
  else
    match probe with
    | .error _ => .ok (none, imu)
    | .ok dur =>
        if dur = 0 then .error .zeroDivision
        else .ok (some ((tsMax imu - tsMin imu) / dur * 100 < 90), imu)

/-- `_extract_standard_metadata` (lines 64-89): run exiftool with JSON
output, parse, bail out on an empty document, otherwise parse the first
element and succeed iff `self.imu_data` is non-empty afterwards. -/
def extract_standard_metadata (env : ExtractEnv α) (imu : List (IMUReading α)) :
    Except PyErr (Bool × List (IMUReading α)) :=
  match env.stdExif with
  | .error _ => .error .calledProcess
  | .ok (.error _) => .error .jsonDecode
  | .ok (.ok metas) =>
      if metas.isEmpty then .ok (false, imu)
      else
        let imu2 := imu ++ parse_imu_from_metadata (metas.headD [])
        .ok (0 < imu2.length, imu2)

/-- `_extract_insta360_comprehensive` (lines 91-117): raw parse first (its
boolean is `len(self.imu_data) > 0`), completeness check on success, JSON
fallback on an empty parse. -/
def extract_insta360_comprehensive (env : ExtractEnv α)
    (imu : List (IMUReading α)) :
    Except PyErr (Bool × List (IMUReading α)) :=
  match env.rawExif with
  | .error _ => .error .calledProcess
  | .ok lines =>
      let imu1 := imu ++ parse_raw_insta360_output lines
      if 0 < imu1.length then
        match check_imu_data_completeness imu1 env.probe with
        | .error e => .error e
        | .ok (_, imu2) => .ok (true, imu2)
      else extract_standard_metadata env imu1

/-- The `try` body of `extract_imu_metadata` (lines 44-51). -/
def extract_imu_metadata_body (env : ExtractEnv α) :
    Except PyErr (Bool × List (IMUReading α)) :=
  if env.insvSuffix then extract_insta360_comprehensive env []
  else extract_standard_metadata env []

/-- `extract_imu_metadata` (lines 39-62): every exception raised by the body
is caught and converted to `False`. -/
def extract_imu_metadata (env : ExtractEnv α) : Bool :=
  match extract_imu_metadata_body env with
  | .ok (b, _) => b
  | .error _ => false

/-- `_apply_gravity_compensation` (lines 375-398): with at least 10 readings,
estimate the per-axis gravity bias as the mean over the first 10, then for
every reading subtract the bias and scale by 9.8; with fewer than 10
readings, return immediately. -/
def apply_gravity_compensation (rs : List (IMUReading α)) : List (IMUReading α) :=
  if rs.length < 10 then rs
  else
    let g := rs.take 10
    let n : α := (g.length : α)
    let ax := (g.map (·.accel_x)).sum / n
    let ay := (g.map (·.accel_y)).sum / n
    let az := (g.map (·.accel_z)).sum / n
    rs.map (fun r =>
      { r with
        accel_x := (r.accel_x - ax) * (98 / 10)
        accel_y := (r.accel_y - ay) * (98 / 10)
        accel_z := (r.accel_z - az) * (98 / 10) })

/-- What claim C9 asserts the pass does to every reading of every sequence:
subtract per axis the mean over the first 10 readings, then scale by 9.8. -/
def gravity_claim_rewrite (rs : List (IMUReading α)) : List (IMUReading α) :=
  let g := rs.take 10
  let ax := (g.map (·.accel_x)).sum / 10
  let ay := (g.map (·.accel_y)).sum / 10
  let az := (g.map (·.accel_z)).sum / 10
  rs.map (fun r =>
    { r with
      accel_x := (r.accel_x - ax) * (98 / 10)
      accel_y := (r.accel_y - ay) * (98 / 10)
      accel_z := (r.accel_z - az) * (98 / 10) })

end Core

/-- A filesystem path split as `pathlib` sees it: directory, stem, suffix.
`with_suffix` replaces the suffix, keeping directory and stem. -/
structure FsPath where
  dir : String
  stem : String
  suffix : String
  deriving DecidableEq, Repr

/-- `Path.with_suffix`. -/
def withSuffix (p : FsPath) (s : String) : FsPath := { p with suffix := s }

/-- `str.lower()` (ASCII, as used on suffixes here). -/
def strLower (s : String) : String := ⟨s.data.map Char.toLower⟩

/-- `find_insv_file_for_mp4` (extract_360video_imu.py lines 159-169): for an
`.mp4` input, try the sibling with suffix exactly `.insv`, then exactly
`.INSV`; the filesystem is modelled as the list of existing paths. -/
def find_insv_file_for_mp4 (fs : List FsPath) (p : FsPath) : Option FsPath :=
  if strLower p.suffix = ".mp4" then
    if withSuffix p ".insv" ∈ fs then some (withSuffix p ".insv")
    else if withSuffix p ".INSV" ∈ fs then some (withSuffix p ".INSV")
    else none
  else none

/-- The path `extract_imu_data_for_analysis` (lines 171-182) hands to
`IMUExtractor`: the found sibling, or the input itself. -/
def extract_imu_data_target (fs : List FsPath) (p : FsPath) : FsPath :=
  match find_insv_file_for_mp4 fs p with
  | some q => q
  | none => p

/-- A sibling of `p` (same directory and stem) present on the filesystem
whose raw-format suffix matches `.insv` case-insensitively, as claim C8
quantifies it. -/
def caseInsensitiveSibling (fs : List FsPath) (p : FsPath) : Option FsPath :=
  fs.find? (fun q => q.dir = p.dir && q.stem = p.stem &&
    strLower q.suffix = ".insv")

/-! ## Theorems -/

theorem scanl_head_tail {β γ : Type} (f : γ → β → γ) (c : γ) (l : List β) :
    List.scanl f c l = c :: (List.scanl f c l).tail := by
  cases l <;> simp [List.scanl]

theorem headingSteps_eq_zip_scanl (piv : ℝ) :
    ∀ (rs : List (IMUReading ℝ)) (prev : IMUReading ℝ) (cur : ℝ),
      headingSteps piv cur prev rs =
        (rs.map (·.timestamp)).zip
          ((List.scanl (fun h d => normalize360 (h + d)) cur
            (List.zipWith (stepDelta piv) (prev :: rs) rs)).tail)
  | [], _, _ => by simp [headingSteps]
  | r :: rs, prev, cur => by
      rw [headingSteps]
      have hstep : headingStep piv cur prev r =
          normalize360 (cur + stepDelta piv prev r) := rfl
      rw [List.zipWith_cons_cons, List.scanl_cons]
      simp only [List.singleton_append, List.tail_cons, List.map_cons]
      rw [scanl_head_tail, List.zip_cons_cons, ← headingSteps_eq_zip_scanl piv rs r
        (normalize360 (cur + stepDelta piv prev r)), hstep]

theorem heading_changes_as_scan (piv : ℝ) (rs : List (IMUReading ℝ)) :
    calculate_heading_changes piv rs =
      (rs.map (·.timestamp)).zip (headingScan piv rs) := by
  cases rs with
  | nil => simp [calculate_heading_changes, headingScan]
  | cons r rest =>
      rw [calculate_heading_changes, headingScan]
      simp only [List.tail_cons, List.map_cons]
      rw [scanl_head_tail, List.zip_cons_cons]
      rw [headingSteps_eq_zip_scanl]

theorem pymod_eq_fract (h : ℝ) : pymod h 360 = 360 * Int.fract (h / 360) := by
  unfold pymod Int.fract
  rw [mul_sub, mul_div_cancel₀ _ (by norm_num : (360 : ℝ) ≠ 0)]

theorem normalize360_bounds (h : ℝ) :
    0 ≤ normalize360 h ∧ normalize360 h < 360 := by
  have hnn : 0 ≤ pymod h 360 := by
    rw [pymod_eq_fract]
    exact mul_nonneg (by norm_num) (Int.fract_nonneg _)
  have hlt : pymod h 360 < 360 := by
    rw [pymod_eq_fract]
    calc 360 * Int.fract (h / 360) < 360 * 1 :=
          mul_lt_mul_of_pos_left (Int.fract_lt_one _) (by norm_num)
      _ = 360 := mul_one 360
  unfold normalize360
  rw [if_neg (not_lt.2 hnn)]
  exact ⟨hnn, hlt⟩

theorem normalize360_eq_self {x : ℝ} (h0 : 0 ≤ x) (h1 : x < 360) :
    normalize360 x = x := by
  have hfl : ⌊x / 360⌋ = 0 := by
    rw [Int.floor_eq_zero_iff]
    constructor
    · exact div_nonneg h0 (by norm_num)
    · rw [div_lt_one (by norm_num : (0:ℝ) < 360)]
      exact h1
  unfold normalize360 pymod
  rw [hfl]
  norm_num
  exact h0

theorem headingSteps_length (piv : ℝ) :
    ∀ (rs : List (IMUReading ℝ)) (prev : IMUReading ℝ) (cur : ℝ),
      (headingSteps piv cur prev rs).length = rs.length
  | [], _, _ => rfl
  | r :: rs, prev, cur => by
      rw [headingSteps]
      simp [headingSteps_length piv rs]

/-- C1: for every reading sequence, the heading integrator emits exactly one
sample per reading in input order (empty for empty input): the timestamps
are the readings' timestamps and the heading values are the left scan
starting at 0 that, for each consecutive pair, adds `degrees(gyro_z * dt)`
(with `dt` replaced by 1 ms when the timestamp delta is ≤ 0) to the running
heading and renormalizes; in particular timestamps [0, 1, 2] with gyro-Z
rates [0, π/2, 0] rad/s yield headings [0°, 90°, 90°]. -/
theorem C1_heading_integration :
    (∀ rs : List (IMUReading ℝ),
      (calculate_heading_changes Real.pi rs).length = rs.length) ∧
    (∀ rs : List (IMUReading ℝ),
      calculate_heading_changes Real.pi rs =
        (rs.map (·.timestamp)).zip (headingScan Real.pi rs)) ∧
    calculate_heading_changes Real.pi
      [⟨0, 0, 0, 0, 0, 0, 0⟩, ⟨1, 0, 0, 0, 0, 0, Real.pi / 2⟩,
       ⟨2, 0, 0, 0, 0, 0, 0⟩] =
      [((0 : ℝ), (0 : ℝ)), (1, 90), (2, 90)] := by
  refine ⟨?_, heading_changes_as_scan Real.pi, ?_⟩
  · intro rs
    cases rs with
    | nil => rfl
    | cons r rest =>
        simp [calculate_heading_changes, headingSteps_length]
  · have s1 : headingStep Real.pi 0 (⟨0, 0, 0, 0, 0, 0, 0⟩ : IMUReading ℝ)
        ⟨1, 0, 0, 0, 0, 0, Real.pi / 2⟩ = 90 := by
      unfold headingStep math_degrees dtFix
      norm_num
      rw [show Real.pi / 2 * 180 / Real.pi = (90 : ℝ) by field_simp; ring]
      exact normalize360_eq_self (by norm_num) (by norm_num)
    have s2 : headingStep Real.pi 90 (⟨1, 0, 0, 0, 0, 0, Real.pi / 2⟩ : IMUReading ℝ)
        ⟨2, 0, 0, 0, 0, 0, 0⟩ = 90 := by
      unfold headingStep math_degrees dtFix
      norm_num
      exact normalize360_eq_self (by norm_num) (by norm_num)
    simp only [calculate_heading_changes, headingSteps]
    rw [s1, s2]

theorem headingSteps_snd_norm (piv : ℝ) :
    ∀ (rs : List (IMUReading ℝ)) (prev : IMUReading ℝ) (cur : ℝ) (p : ℝ × ℝ),
      p ∈ headingSteps piv cur prev rs → ∃ y, p.2 = normalize360 y
  | [], _, _, _, h => by simp [headingSteps] at h
  | r :: rs, prev, cur, p, h => by
      rw [headingSteps] at h
      rcases List.mem_cons.1 h with h1 | h2
      · refine ⟨cur + math_degrees piv (r.gyro_z * dtFix (r.timestamp - prev.timestamp)), ?_⟩
        rw [h1]
        rfl
      · exact headingSteps_snd_norm piv rs r _ p h2

/-- C2: every heading emitted by the integrator lies in [0, 360), and the
first emitted sample's heading is 0. -/
theorem C2_heading_range :
    (∀ (rs : List (IMUReading ℝ)), ∀ p ∈ calculate_heading_changes Real.pi rs,
        0 ≤ p.2 ∧ p.2 < 360) ∧
    (∀ (rs : List (IMUReading ℝ)) (p : ℝ × ℝ),
        (calculate_heading_changes Real.pi rs).head? = some p → p.2 = 0) := by
  constructor
  · intro rs p hp
    cases rs with
    | nil => simp [calculate_heading_changes] at hp
    | cons r rest =>
        rw [calculate_heading_changes] at hp
        rcases List.mem_cons.1 hp with h1 | h2
        · rw [h1]
          norm_num
        · obtain ⟨y, hy⟩ := headingSteps_snd_norm Real.pi rest r 0 p h2
          rw [hy]
          exact normalize360_bounds y
  · intro rs p hp
    cases rs with
    | nil => simp [calculate_heading_changes] at hp
    | cons r rest =>
        simp only [calculate_heading_changes, List.head?_cons, Option.some.injEq] at hp
        rw [← hp]

/-- Witness for C2 at a concrete one-reading input. -/
theorem C2_heading_range_witness :
    0 ≤ (((0 : ℝ), (0 : ℝ))).2 ∧ (((0 : ℝ), (0 : ℝ))).2 < 360 :=
  C2_heading_range.1 [⟨0, 0, 0, 0, 0, 0, 0⟩] ((0 : ℝ), (0 : ℝ))
    (by simp [calculate_heading_changes, headingSteps])

theorem foldl_stepLine_spec :
    ∀ (lines : List (RawLine ℝ)) (tc : Option ℝ) (acc gyr : Option (ℝ × ℝ × ℝ))
      (out : List (IMUReading ℝ)),
      (tc = none ∨ acc = none ∨ gyr = none) →
      (lines.foldl stepLine ⟨tc, acc, gyr, out⟩).out =
        out ++ specParse tc acc gyr lines := by
  intro lines
  induction lines with
  | nil =>
      intro tc acc gyr out h
      simp [specParse]
  | cons l ls ih =>
      intro tc acc gyr out h
      rcases tc with _ | tcv <;> rcases acc with _ | accv <;> rcases gyr with _ | gyrv <;>
        rcases l with ⟨_ | v⟩ | ⟨_ | a⟩ | ⟨_ | g⟩ | _ <;>
        simp only [List.foldl_cons, stepLine, emitCheck, specParse, specSlotTc,
          specSlotAcc, specSlotGyr, specEmit] <;>
        simp_all

/-- C3: the line-by-line parser of the plain-text extraction output is
exactly the three-pending-slot process: a line carrying a well-formed value
updates its slot (time codes divided by 1000), a malformed numeric field
leaves its slot unchanged, and whenever time code, accelerometer triple and
gyroscope triple are simultaneously populated exactly one reading is
emitted, in completion order, and all three slots are reset. -/
theorem C3_raw_parse_pending_slots :
    ∀ lines : List (RawLine ℝ),
      parse_raw_insta360_output lines = specParse none none none lines := by
  intro lines
  have h := foldl_stepLine_spec lines none none none [] (Or.inl rfl)
  simpa [parse_raw_insta360_output] using h

theorem dirLoopAux_eq :
    ∀ (hs : List (ℝ × ℝ)) (total : ℝ) (changes : ℕ) (prev : ℝ),
      dirLoopAux total changes prev hs =
        (total +
          ((List.zipWith shortestDelta (prev :: hs.map Prod.snd)
            (hs.map Prod.snd)).map abs).sum,
         changes +
          (List.zipWith shortestDelta (prev :: hs.map Prod.snd)
            (hs.map Prod.snd)).countP (fun d => decide (10 < |d|)))
  | [], total, changes, prev => by simp [dirLoopAux]
  | p :: rest, total, changes, prev => by
      rw [dirLoopAux, dirLoopAux_eq rest]
      simp only [List.map_cons, List.zipWith_cons_cons, List.sum_cons,
        List.countP_cons, Prod.mk.injEq, decide_eq_true_eq]
      constructor
      · ring
      · split_ifs <;> omega

/-- C4: the direction-summary loop accumulates, for each consecutive pair of
headings, the absolute value of the signed shortest angular delta
(wrap-corrected by ±360 beyond ±180) and counts exactly the deltas whose
absolute value exceeds 10 degrees; in particular 350° followed by 10° gives
a delta of +20, which is counted. -/
theorem C4_direction_summary_deltas :
    (∀ (prev : ℝ) (hs : List (ℝ × ℝ)),
      dirLoopAux 0 0 prev hs =
        (((List.zipWith shortestDelta (prev :: hs.map Prod.snd)
            (hs.map Prod.snd)).map abs).sum,
         (List.zipWith shortestDelta (prev :: hs.map Prod.snd)
            (hs.map Prod.snd)).countP (fun d => decide (10 < |d|)))) ∧
    shortestDelta (350 : ℝ) 10 = 20 ∧ (10 : ℝ) < |(20 : ℝ)| := by
  refine ⟨fun prev hs => ?_, ?_, ?_⟩
  · rw [dirLoopAux_eq]
    simp
  · unfold shortestDelta
    norm_num
  · norm_num

theorem headingScan_length (piv : ℝ) (rs : List (IMUReading ℝ)) :
    rs.length ≤ (headingScan piv rs).length := by
  unfold headingScan
  rw [List.length_scanl]
  cases rs <;> simp [List.length_zipWith]

theorem calc_map_fst (piv : ℝ) (rs : List (IMUReading ℝ)) :
    (calculate_heading_changes piv rs).map Prod.fst = rs.map (·.timestamp) := by
  rw [heading_changes_as_scan]
  exact List.map_fst_zip _ _ (by simpa using headingScan_length piv rs)

theorem getLastD_fst :
    ∀ (l : List (ℝ × ℝ)) (d : ℝ × ℝ),
      (l.getLastD d).1 = (l.map Prod.fst).getLastD d.1
  | [], _ => rfl
  | p :: rest, d => by
      rw [List.getLastD_cons, List.map_cons, List.getLastD_cons, getLastD_fst rest p]

/-- C5 counterexample: the claim predicts that a length-0 reading sequence
yields a direction summary with average rotation rate 0, but the code
returns the empty dictionary (no summary at all). -/
theorem C5_empty_counterexample :
    ¬ ∃ s : DirectionSummary ℝ,
        get_direction_summary Real.pi ([] : List (IMUReading ℝ)) = some s ∧
          s.average_rotation_rate_deg_per_sec = 0 := by
  simp [get_direction_summary]

/-- C5 (amended): a length-0 sequence yields the empty summary; a length-1
sequence yields a summary with average rotation rate 0; and in general the
average rotation rate is total rotation divided by (last timestamp − first
timestamp), or 0 when that span is non-positive or there are fewer than two
heading samples. -/
theorem C5_average_rotation_rate :
    (get_direction_summary Real.pi ([] : List (IMUReading ℝ)) = none) ∧
    (∀ r : IMUReading ℝ, ∃ s, get_direction_summary Real.pi [r] = some s ∧
        s.average_rotation_rate_deg_per_sec = 0) ∧
    (∀ (rs : List (IMUReading ℝ)) (s : DirectionSummary ℝ),
        get_direction_summary Real.pi rs = some s →
        s.average_rotation_rate_deg_per_sec =
          if 1 < s.heading_samples ∧
              0 < (rs.map (·.timestamp)).getLastD 0 - (rs.map (·.timestamp)).headD 0
          then s.total_rotation_degrees /
              ((rs.map (·.timestamp)).getLastD 0 - (rs.map (·.timestamp)).headD 0)
          else 0) := by
  refine ⟨by simp [get_direction_summary], ?_, ?_⟩
  · intro r
    refine ⟨⟨0, 0, 0, 0, 0, 1⟩, ?_, rfl⟩
    simp [get_direction_summary, calculate_heading_changes, headingSteps, dirLoopAux]
  · intro rs s hsome
    cases rs with
    | nil => simp [get_direction_summary] at hsome
    | cons r rest =>
        have hfst : ((r.timestamp, (0 : ℝ)) :: headingSteps Real.pi 0 r rest).map
            Prod.fst = (r :: rest).map (·.timestamp) :=
          calc_map_fst Real.pi (r :: rest)
        have hlast : ((r :: rest).map (·.timestamp)).getLastD 0 =
            ((headingSteps Real.pi 0 r rest).getLastD (r.timestamp, 0)).1 := by
          rw [← hfst, List.map_cons, List.getLastD_cons, getLastD_fst]
        rw [get_direction_summary] at hsome
        simp only [List.isEmpty_cons, Bool.false_eq_true, if_false,
          calculate_heading_changes, Option.some.injEq] at hsome
        subst hsome
        simp only [List.map_cons, List.headD_cons, hlast]
        split_ifs <;> simp_all
        linarith

/-- Witness for C5 at a concrete one-reading input. -/
theorem C5_average_rotation_rate_witness :
    (⟨0, 0, 0, 0, 0, 1⟩ : DirectionSummary ℝ).average_rotation_rate_deg_per_sec =
      if 1 < (⟨0, 0, 0, 0, 0, 1⟩ : DirectionSummary ℝ).heading_samples ∧
          0 < (([(⟨5, 1, 2, 3, 4, 5, 6⟩ : IMUReading ℝ)]).map (·.timestamp)).getLastD 0 -
            (([(⟨5, 1, 2, 3, 4, 5, 6⟩ : IMUReading ℝ)]).map (·.timestamp)).headD 0
      then (⟨0, 0, 0, 0, 0, 1⟩ : DirectionSummary ℝ).total_rotation_degrees /
          ((([(⟨5, 1, 2, 3, 4, 5, 6⟩ : IMUReading ℝ)]).map (·.timestamp)).getLastD 0 -
            (([(⟨5, 1, 2, 3, 4, 5, 6⟩ : IMUReading ℝ)]).map (·.timestamp)).headD 0)
      else 0 :=
  C5_average_rotation_rate.2.2 [⟨5, 1, 2, 3, 4, 5, 6⟩] ⟨0, 0, 0, 0, 0, 1⟩
    (by simp [get_direction_summary, calculate_heading_changes, headingSteps,
      dirLoopAux])

/-- C6: the top-level extraction returns a plain boolean and converts every
failure path to `false`: any exception escaping the strategy body, a
non-zero exit of the external tool on either strategy path, a JSON decode
failure, and the zero-readings-from-every-strategy outcomes. -/
theorem C6_extraction_failure_signaling :
    (∀ (env : ExtractEnv ℝ) (e : PyErr),
        extract_imu_metadata_body env = .error e →
        extract_imu_metadata env = false) ∧
    (∀ env : ExtractEnv ℝ, env.insvSuffix = true → env.rawExif = .error () →
        extract_imu_metadata env = false) ∧
    (∀ env : ExtractEnv ℝ, env.insvSuffix = false → env.stdExif = .error () →
        extract_imu_metadata env = false) ∧
    (∀ env : ExtractEnv ℝ, env.insvSuffix = false →
        env.stdExif = .ok (.error ()) → extract_imu_metadata env = false) ∧
    (∀ (env : ExtractEnv ℝ) (lines : List (RawLine ℝ)),
        env.insvSuffix = true → env.rawExif = .ok lines →
        parse_raw_insta360_output lines = [] →
        (env.stdExif = .error () ∨ env.stdExif = .ok (.error ())) →
        extract_imu_metadata env = false) ∧
    (∀ (env : ExtractEnv ℝ) (metas : List (Meta ℝ)),
        env.insvSuffix = false → env.stdExif = .ok (.ok metas) →
        (metas = [] ∨ parse_imu_from_metadata (metas.headD []) = []) →
        extract_imu_metadata env = false) ∧
    (∀ (env : ExtractEnv ℝ) (lines : List (RawLine ℝ)) (metas : List (Meta ℝ)),
        env.insvSuffix = true → env.rawExif = .ok lines →
        parse_raw_insta360_output lines = [] →
        env.stdExif = .ok (.ok metas) →
        (metas = [] ∨ parse_imu_from_metadata (metas.headD []) = []) →
        extract_imu_metadata env = false) := by
  refine ⟨?_, ?_, ?_, ?_, ?_, ?_, ?_⟩
  · intro env e h
    unfold extract_imu_metadata
    rw [h]
  · intro env h1 h2
    simp [extract_imu_metadata, extract_imu_metadata_body,
      extract_insta360_comprehensive, h1, h2]
  · intro env h1 h2
    simp [extract_imu_metadata, extract_imu_metadata_body,
      extract_standard_metadata, h1, h2]
  · intro env h1 h2
    simp [extract_imu_metadata, extract_imu_metadata_body,
      extract_standard_metadata, h1, h2]
  · intro env lines h1 h2 hp hstd
    rcases hstd with hstd | hstd <;>
      simp [extract_imu_metadata, extract_imu_metadata_body,
        extract_insta360_comprehensive, extract_standard_metadata, h1, h2, hp, hstd]
  · intro env metas h1 h2 hz
    cases metas with
    | nil =>
        simp [extract_imu_metadata, extract_imu_metadata_body,
          extract_standard_metadata, h1, h2]
    | cons m ms =>
        rcases hz with hz | hz
        · exact absurd hz (List.cons_ne_nil m ms)
        · simp only [List.headD_cons] at hz
          simp [extract_imu_metadata, extract_imu_metadata_body,
            extract_standard_metadata, h1, h2, hz]
  · intro env lines metas h1 h2 hp h3 hz
    cases metas with
    | nil =>
        simp [extract_imu_metadata, extract_imu_metadata_body,
          extract_insta360_comprehensive, extract_standard_metadata,
          h1, h2, hp, h3]
    | cons m ms =>
        rcases hz with hz | hz
        · exact absurd hz (List.cons_ne_nil m ms)
        · simp only [List.headD_cons] at hz
          simp [extract_imu_metadata, extract_imu_metadata_body,
            extract_insta360_comprehensive, extract_standard_metadata,
            h1, h2, hp, h3, hz]

/-- Witness for C6: a failing JSON-strategy invocation on a non-`.insv`
input yields `false`. -/
theorem C6_extraction_failure_signaling_witness :
    extract_imu_metadata
      (⟨false, .ok [], .error (), .ok 60⟩ : ExtractEnv ℝ) = false :=
  C6_extraction_failure_signaling.2.2.1 ⟨false, .ok [], .error (), .ok 60⟩ rfl rfl

/-- C7: on a non-empty reading list and a successfully probed non-zero
duration, the completeness check leaves the readings unchanged and emits the
low-coverage warning exactly when (max timestamp − min timestamp) / duration
is below 0.9; a 0–45 s span against 60 s warns, a 0–58 s span does not. -/
theorem C7_completeness_warning :
    (∀ (imu : List (IMUReading ℝ)) (dur : ℝ), imu ≠ [] → dur ≠ 0 →
      ∃ w, check_imu_data_completeness imu (.ok dur) = .ok (some w, imu) ∧
        (w = true ↔ (tsMax imu - tsMin imu) / dur < 9 / 10)) ∧
    check_imu_data_completeness
        [(⟨0, 0, 0, 0, 0, 0, 0⟩ : IMUReading ℝ), ⟨45, 0, 0, 0, 0, 0, 0⟩]
        (.ok 60) =
      .ok (some true, [⟨0, 0, 0, 0, 0, 0, 0⟩, ⟨45, 0, 0, 0, 0, 0, 0⟩]) ∧
    check_imu_data_completeness
        [(⟨0, 0, 0, 0, 0, 0, 0⟩ : IMUReading ℝ), ⟨58, 0, 0, 0, 0, 0, 0⟩]
        (.ok 60) =
      .ok (some false, [⟨0, 0, 0, 0, 0, 0, 0⟩, ⟨58, 0, 0, 0, 0, 0, 0⟩]) := by
  refine ⟨?_, ?_, ?_⟩
  · intro imu dur himu hdur
    have hne : imu.isEmpty = false := by
      cases imu with
      | nil => exact absurd rfl himu
      | cons a l => rfl
    refine ⟨decide ((tsMax imu - tsMin imu) / dur * 100 < 90), ?_, ?_⟩
    · simp [check_imu_data_completeness, hne, hdur]
    · simp only [decide_eq_true_eq]
      constructor <;> intro h <;> linarith
  · simp [check_imu_data_completeness, tsMax, tsMin]
    norm_num
  · simp [check_imu_data_completeness, tsMax, tsMin]
    norm_num

/-- Witness for C7 at the 0–45 s / 60 s scenario. -/
theorem C7_completeness_warning_witness :
    ∃ w, check_imu_data_completeness
        [(⟨0, 0, 0, 0, 0, 0, 0⟩ : IMUReading ℝ), ⟨45, 0, 0, 0, 0, 0, 0⟩]
        (.ok 60) =
      .ok (some w, [⟨0, 0, 0, 0, 0, 0, 0⟩, ⟨45, 0, 0, 0, 0, 0, 0⟩]) ∧
      (w = true ↔
        (tsMax [(⟨0, 0, 0, 0, 0, 0, 0⟩ : IMUReading ℝ), ⟨45, 0, 0, 0, 0, 0, 0⟩] -
          tsMin [(⟨0, 0, 0, 0, 0, 0, 0⟩ : IMUReading ℝ), ⟨45, 0, 0, 0, 0, 0, 0⟩]) / 60 <
          9 / 10) :=
  C7_completeness_warning.1
    [⟨0, 0, 0, 0, 0, 0, 0⟩, ⟨45, 0, 0, 0, 0, 0, 0⟩] 60
    (by simp) (by norm_num)

/-- C8 counterexample: with `video.mp4` and a sibling `video.Insv` (mixed
case) on disk, the claim's case-insensitive rule picks the sibling, but the
code (which only probes `.insv` and `.INSV` exactly) operates on the input
itself. -/
theorem C8_mixed_case_counterexample :
    caseInsensitiveSibling
        [⟨"d", "video", ".mp4"⟩, ⟨"d", "video", ".Insv"⟩]
        ⟨"d", "video", ".mp4"⟩ = some ⟨"d", "video", ".Insv"⟩ ∧
    strLower (FsPath.suffix ⟨"d", "video", ".mp4"⟩) = ".mp4" ∧
    extract_imu_data_target
        [⟨"d", "video", ".mp4"⟩, ⟨"d", "video", ".Insv"⟩]
        ⟨"d", "video", ".mp4"⟩ = ⟨"d", "video", ".mp4"⟩ ∧
    (⟨"d", "video", ".mp4"⟩ : FsPath) ≠ ⟨"d", "video", ".Insv"⟩ := by
  refine ⟨?_, ?_, ?_, ?_⟩ <;> decide

/-- C8 (amended): for an input whose suffix lowercases to `.mp4`, the
extraction operates on the sibling with suffix exactly `.insv` when it
exists, else on the sibling with suffix exactly `.INSV` when it exists, else
on the input itself; non-`.mp4` inputs are used directly. -/
theorem C8_sibling_resolution :
    (∀ (fs : List FsPath) (p : FsPath), strLower p.suffix = ".mp4" →
      (withSuffix p ".insv" ∈ fs →
        extract_imu_data_target fs p = withSuffix p ".insv") ∧
      (withSuffix p ".insv" ∉ fs → withSuffix p ".INSV" ∈ fs →
        extract_imu_data_target fs p = withSuffix p ".INSV") ∧
      (withSuffix p ".insv" ∉ fs → withSuffix p ".INSV" ∉ fs →
        extract_imu_data_target fs p = p)) ∧
    (∀ (fs : List FsPath) (p : FsPath), strLower p.suffix ≠ ".mp4" →
      extract_imu_data_target fs p = p) := by
  constructor
  · intro fs p hmp4
    refine ⟨fun h1 => ?_, fun h1 h2 => ?_, fun h1 h2 => ?_⟩ <;>
      simp [extract_imu_data_target, find_insv_file_for_mp4, hmp4, h1]
    · simp [h2]
    · simp [h2]
  · intro fs p hmp4
    simp [extract_imu_data_target, find_insv_file_for_mp4, hmp4]

/-- Witness for C8 at a concrete filesystem with an exact `.insv` sibling. -/
theorem C8_sibling_resolution_witness :
    extract_imu_data_target [⟨"d", "a", ".insv"⟩] ⟨"d", "a", ".mp4"⟩ =
      withSuffix ⟨"d", "a", ".mp4"⟩ ".insv" :=
  (C8_sibling_resolution.1 [⟨"d", "a", ".insv"⟩] ⟨"d", "a", ".mp4"⟩
    (by decide)).1 (by decide)

/-- C9 counterexample: on a single-reading sequence the code returns the
readings untouched (fewer than 10 readings), while the claim's rewrite
changes the accelerometer fields. -/
theorem C9_short_sequence_counterexample :
    apply_gravity_compensation [(⟨0, 1, 0, 0, 0, 0, 0⟩ : IMUReading ℝ)] ≠
      gravity_claim_rewrite [⟨0, 1, 0, 0, 0, 0, 0⟩] := by
  simp only [apply_gravity_compensation, gravity_claim_rewrite]
  norm_num [IMUReading.mk.injEq]

/-- C9 (amended): for sequences of at least 10 readings the pass rewrites
every reading's accelerometer fields by subtracting the per-axis mean of the
first 10 readings and scaling by 9.8; sequences with fewer than 10 readings
are returned unchanged; and for every sequence the timestamp and the three
gyro fields of every reading are left unchanged. -/
theorem C9_gravity_compensation :
    (∀ rs : List (IMUReading ℝ), 10 ≤ rs.length →
      apply_gravity_compensation rs = gravity_claim_rewrite rs) ∧
    (∀ rs : List (IMUReading ℝ), rs.length < 10 →
      apply_gravity_compensation rs = rs) ∧
    (∀ rs : List (IMUReading ℝ),
      (apply_gravity_compensation rs).map
          (fun r => (r.timestamp, r.gyro_x, r.gyro_y, r.gyro_z)) =
        rs.map (fun r => (r.timestamp, r.gyro_x, r.gyro_y, r.gyro_z))) := by
  refine ⟨?_, ?_, ?_⟩
  · intro rs h
    have hnot : ¬ rs.length < 10 := by omega
    have hlen : (rs.take 10).length = 10 := by
      rw [List.length_take]
      omega
    simp [apply_gravity_compensation, gravity_claim_rewrite, hnot, hlen]
  · intro rs h
    unfold apply_gravity_compensation
    rw [if_pos h]
  · intro rs
    unfold apply_gravity_compensation
    split_ifs
    · rfl
    · rw [List.map_map]
      rfl

/-- Witness for C9 at a concrete ten-reading input. -/
theorem C9_gravity_compensation_witness :
    apply_gravity_compensation
        [(⟨0, 1, 2, 3, 4, 5, 6⟩ : IMUReading ℝ), ⟨1, 1, 2, 3, 4, 5, 6⟩,
         ⟨2, 1, 2, 3, 4, 5, 6⟩, ⟨3, 1, 2, 3, 4, 5, 6⟩, ⟨4, 1, 2, 3, 4, 5, 6⟩,
         ⟨5, 1, 2, 3, 4, 5, 6⟩, ⟨6, 1, 2, 3, 4, 5, 6⟩, ⟨7, 1, 2, 3, 4, 5, 6⟩,
         ⟨8, 1, 2, 3, 4, 5, 6⟩, ⟨9, 1, 2, 3, 4, 5, 6⟩] =
      gravity_claim_rewrite
        [(⟨0, 1, 2, 3, 4, 5, 6⟩ : IMUReading ℝ), ⟨1, 1, 2, 3, 4, 5, 6⟩,
         ⟨2, 1, 2, 3, 4, 5, 6⟩, ⟨3, 1, 2, 3, 4, 5, 6⟩, ⟨4, 1, 2, 3, 4, 5, 6⟩,
         ⟨5, 1, 2, 3, 4, 5, 6⟩, ⟨6, 1, 2, 3, 4, 5, 6⟩, ⟨7, 1, 2, 3, 4, 5, 6⟩,
         ⟨8, 1, 2, 3, 4, 5, 6⟩, ⟨9, 1, 2, 3, 4, 5, 6⟩] :=
  C9_gravity_compensation.1 _ (by simp)

theorem extract_objs_len :
    ∀ (items : List (Meta ℝ)) (n : ℕ),
      (∀ pr ∈ items.enumFrom n,
        (parse_single_imu_reading pr.2 ((pr.1 : ℝ) * (1 / 100))).isSome) →
      (((items.map JVal.obj).enumFrom n).flatMap extract_arr_item).length =
        items.length
  | [], _, _ => rfl
  | d :: rest, n, hp => by
      obtain ⟨r, hr⟩ := Option.isSome_iff_exists.1
        (hp (n, d) (by simp [List.enumFrom]))
      simp only [List.map_cons, List.enumFrom, List.flatMap_cons, List.length_append,
        extract_arr_item]
      rw [extract_objs_len rest (n + 1)
        (fun pr hpr => hp pr (by simp [List.enumFrom, hpr]))]
      simp only at hr
      rw [hr]
      simp only [Option.toList_some, List.length_cons, List.length_nil]
      omega

theorem extract_arr_length (items : List (Meta ℝ))
    (hp : ∀ pr ∈ items.enum,
      (parse_single_imu_reading pr.2 ((pr.1 : ℝ) * (1 / 100))).isSome) :
    (extract_imu_readings (JVal.arr (items.map JVal.obj))).length = items.length := by
  simp only [extract_imu_readings]
  rw [show (List.map JVal.obj items).enum =
      (List.map JVal.obj items).enumFrom 0 from rfl]
  exact extract_objs_len items 0 hp

theorem parse_single_key_double (k : String)
    (hk : k = "AccelerometerData" ∨ k = "GyroscopeData" ∨ k = "IMUData")
    (items : List (Meta ℝ)) :
    parse_imu_from_metadata [(k, JVal.arr (items.map JVal.obj))] =
      extract_imu_readings (JVal.arr (items.map JVal.obj)) ++
        extract_imu_readings (JVal.arr (items.map JVal.obj)) := by
  rcases hk with rfl | rfl | rfl
  · have h1 : imu_fields.find?
        (fun f => (metaLookup ([("AccelerometerData",
          JVal.arr (items.map JVal.obj))] : Meta ℝ) f).isSome) =
        some "AccelerometerData" := rfl
    have h2 : metaLookup ([("AccelerometerData",
        JVal.arr (items.map JVal.obj))] : Meta ℝ) "AccelerometerData" =
        some (JVal.arr (items.map JVal.obj)) := rfl
    have h3 : docEntryMatch (("AccelerometerData",
        JVal.arr (items.map JVal.obj)) : String × JVal ℝ) = false := rfl
    have h4 : (keyLooksImu "AccelerometerData" &&
        isListOrDict (JVal.arr (items.map JVal.obj))) = true := rfl
    simp only [parse_imu_from_metadata, h1, h2, h3, h4, Option.getD_some,
      List.flatMap_cons, List.flatMap_nil, Bool.false_eq_true, if_false,
      if_true, List.append_nil, List.nil_append]
  · have h1 : imu_fields.find?
        (fun f => (metaLookup ([("GyroscopeData",
          JVal.arr (items.map JVal.obj))] : Meta ℝ) f).isSome) =
        some "GyroscopeData" := rfl
    have h2 : metaLookup ([("GyroscopeData",
        JVal.arr (items.map JVal.obj))] : Meta ℝ) "GyroscopeData" =
        some (JVal.arr (items.map JVal.obj)) := rfl
    have h3 : docEntryMatch (("GyroscopeData",
        JVal.arr (items.map JVal.obj)) : String × JVal ℝ) = false := rfl
    have h4 : (keyLooksImu "GyroscopeData" &&
        isListOrDict (JVal.arr (items.map JVal.obj))) = true := rfl
    simp only [parse_imu_from_metadata, h1, h2, h3, h4, Option.getD_some,
      List.flatMap_cons, List.flatMap_nil, Bool.false_eq_true, if_false,
      if_true, List.append_nil, List.nil_append]
  · have h1 : imu_fields.find?
        (fun f => (metaLookup ([("IMUData",
          JVal.arr (items.map JVal.obj))] : Meta ℝ) f).isSome) =
        some "IMUData" := rfl
    have h2 : metaLookup ([("IMUData",
        JVal.arr (items.map JVal.obj))] : Meta ℝ) "IMUData" =
        some (JVal.arr (items.map JVal.obj)) := rfl
    have h3 : docEntryMatch (("IMUData",
        JVal.arr (items.map JVal.obj)) : String × JVal ℝ) = false := rfl
    have h4 : (keyLooksImu "IMUData" &&
        isListOrDict (JVal.arr (items.map JVal.obj))) = true := rfl
    simp only [parse_imu_from_metadata, h1, h2, h3, h4, Option.getD_some,
      List.flatMap_cons, List.flatMap_nil, Bool.false_eq_true, if_false,
      if_true, List.append_nil, List.nil_append]

/-- C10: a metadata object whose readings sit under one of the fixed field
names `AccelerometerData`, `GyroscopeData`, `IMUData` (each of which also
matches the later case-insensitive substring scan) has its reading list
extracted twice — once by the exact-name first-match lookup and once by the
substring scan — so `n` parseable reading dicts contribute `2n` readings. -/
theorem C10_fixed_field_double_append :
    ∀ k : String,
      (k = "AccelerometerData" ∨ k = "GyroscopeData" ∨ k = "IMUData") →
      ∀ items : List (Meta ℝ),
        parse_imu_from_metadata [(k, JVal.arr (items.map JVal.obj))] =
          extract_imu_readings (JVal.arr (items.map JVal.obj)) ++
            extract_imu_readings (JVal.arr (items.map JVal.obj)) ∧
        ((∀ pr ∈ items.enum,
            (parse_single_imu_reading pr.2 ((pr.1 : ℝ) * (1 / 100))).isSome) →
          (parse_imu_from_metadata [(k, JVal.arr (items.map JVal.obj))]).length =
            2 * items.length) := by
  intro k hk items
  refine ⟨parse_single_key_double k hk items, fun hp => ?_⟩
  rw [parse_single_key_double k hk items, List.length_append,
    extract_arr_length items hp]
  ring

/-- Witness for C10: one parseable reading dict under `IMUData` yields two
readings. -/
theorem C10_fixed_field_double_append_witness :
    (parse_imu_from_metadata [("IMUData", JVal.arr
        (([[("AccelX", JVal.num (1 : ℝ)), ("AccelY", JVal.num 2),
            ("AccelZ", JVal.num 3)]] : List (Meta ℝ)).map JVal.obj))]).length =
      2 * ([[("AccelX", JVal.num (1 : ℝ)), ("AccelY", JVal.num 2),
            ("AccelZ", JVal.num 3)]] : List (Meta ℝ)).length :=
  (C10_fixed_field_double_append "IMUData" (Or.inr (Or.inr rfl))
    [[("AccelX", JVal.num 1), ("AccelY", JVal.num 2), ("AccelZ", JVal.num 3)]]).2
    (by decide)

end AVGaussian
